import Mathlib

/-!
# Task orchestration of the AliExpress parallel crawler

A shallow embedding of `src/core/task.js`, `src/core/aliexpress.js`,
`src/util/cluster.js` and `src/index.js`.

Conventions of the embedding.

* Everything the browser, the network and the clock decide is an explicit
  input (`PageRun`, `AttemptRun`, `Request`): the outcome of every awaited
  page operation, of `Cluster.launch`, of `parseRequestBody`, and every
  measured duration.
* A JavaScript property that may be absent is an `Option` (`none` is
  `undefined`).
* Durations are natural numbers counting hundredths of a millisecond
  (`toMilliseconds` rounds to two decimals).
* A thrown value is a `Thrown`; a function that may throw returns the value
  thrown next to the state it leaves behind.
* A JavaScript `Map` is an insertion-ordered association list (`TaskMap`).
-/

namespace Crawler

/-! ## Data model -/

/-- The values of config/environment.js the orchestration reads:
`retries` (`RETRIES`, default 3) and `concurrency` (`CONCURRENCY`). -/
structure Env where
  retries : Nat
  concurrency : Nat
deriving DecidableEq, Repr

/-- One job of a batch: `id`, `site` and the parameter the AliExpress scraper
reads (`product`). Ids are strings; a `Map` compares string keys by equality. -/
structure Context where
  id : String
  site : String
  product : String
deriving DecidableEq, Repr

/-- An `Error` object. `name` and `message` are what the handlers read from
it; they are not enumerable own properties, so an object spread does not copy
them. `transient` is the one enumerable own property a failure may carry. -/
structure JsError where
  name : String
  message : String
  transient : Option Bool := none
deriving DecidableEq, Repr

/-- A value raised by `throw`: a string (the handler throws `"retry"`) or an
error object. -/
inductive Thrown where
  | str (s : String)
  | err (e : JsError)
deriving DecidableEq, Repr

/-- The object `parseOffer` builds from the text of one offer. -/
structure Offer where
  productTitle : Option String
  discountedPriceRange : Option String
  fullPriceRange : Option String
  grade : String
  soldUnits : Option String
  seller : Option String
deriving DecidableEq, Repr

/-- The `perf` object: stage name to duration, in the order the keys were set. -/
abbrev Perf := List (String × Nat)

/-- The object a scraper resolves to. `scrap` of core/aliexpress.js returns
`{ offers, perf }` or `{ error, perf }`; `taskHandler` reads `pricePoints`,
`error` and `perf` from it. -/
structure ScrapResult where
  offers : Option (List Offer) := none
  pricePoints : Option (List Offer) := none
  error : Option JsError := none
  perf : Perf := []
deriving DecidableEq, Repr

/-- The object pushed on `task.errors`: `{ ...baseError, ...error }` with
`baseError = { transient: true, execution, perf }`. -/
structure ErrorRecord where
  transient : Bool
  execution : Int
  perf : Perf
deriving DecidableEq, Repr

/-- The object `createTask` returns and `taskHandler` mutates. -/
structure Task where
  context : Context
  retries : Int
  success : Bool
  timeElapsed : Nat
  perf : Perf
  errors : List ErrorRecord
  pricePoints : Option (List Offer)
deriving DecidableEq, Repr

/-! ## core/aliexpress.js -/

/-- What the browser page does during one attempt: the outcome of each awaited
page operation of the scraper. `screenshot path` is `none` when that screenshot
resolves and `some e` when it rejects with `e`. -/
structure PageRun where
  loadPage : Except JsError Nat
  fillForm : Except JsError Nat
  submitForm : Except JsError Nat
  extractOffers : Except JsError (List Offer)
  screenshot : String → Option JsError

/-- The `try` block of `scrap` of core/aliexpress.js: the `perf` object as it
stands when the block is left, and either the offers or the error caught. -/
def scrapAliexpressTry (page : PageRun) : Perf × Except JsError (List Offer) :=
  match page.loadPage with
  | .error e => ([], .error e)
  | .ok t1 =>
    let perf1 : Perf := [("pageLoad", t1)]
    match page.screenshot "pageLoad.jpg" with
    | some e => (perf1, .error e)
    | none =>
      match page.fillForm with
      | .error e => (perf1, .error e)
      | .ok t2 =>
        let perf2 : Perf := perf1 ++ [("fillParameters", t2)]
        match page.screenshot "fillParameters.jpg" with
        | some e => (perf2, .error e)
        | none =>
          match page.submitForm with
          | .error e => (perf2, .error e)
          | .ok t3 =>
            let perf3 : Perf := perf2 ++ [("resultPage", t3)]
            match page.screenshot "resultPage.jpg" with
            | some e => (perf3, .error e)
            | none =>
              match page.extractOffers with
              | .error e => (perf3, .error e)
              | .ok offers => (perf3, .ok offers)

/-- The function `scrap` of core/aliexpress.js, under the name core/task.js
imports it by. It resolves to
`{ offers, perf }`, or to `{ error, perf }` when the `try` block threw; it
rejects only when the screenshot taken in the `catch` block rejects. -/
def scrapAliexpress (page : PageRun) (_context : Context) : Except JsError ScrapResult :=
  match scrapAliexpressTry page with
  | (perf, .ok offers) => .ok { offers := some offers, perf := perf }
  | (perf, .error error) =>
    match page.screenshot "error" with
    | some e => .error e
    | none => .ok { error := some error, perf := perf }

/-! ## core/task.js -/

/-- The constant `allowedSites`. -/
def allowedSites : List String := ["aliexpress"]

/-- The names bound where `tasks.delete(...)` stands in `taskHandler`: the
parameters of the module wrapper of Node, the module-level declarations of
core/task.js, and the parameters and function-level locals of `taskHandler`.
The global object of Node has no property of the name looked up here. -/
def taskModuleScope : List String :=
  ["exports", "require", "module", "__filename", "__dirname",
   "env", "logger", "measureTimeElapsed", "scrapAliexpress", "allowedSites",
   "resolve", "taskHandler", "createTask",
   "page", "task", "start", "execution", "context", "scraper",
   "pricePoints", "error", "perf"]

/-- The error raised when an identifier that is bound nowhere is evaluated. -/
def referenceError (name : String) : JsError :=
  { name := "ReferenceError", message := name ++ " is not defined" }

/-- The error raised when a property of `undefined` is read. -/
def typeError (message : String) : JsError :=
  { name := "TypeError", message := message }

/-- The function `resolve`: the scraper of a site, `none` (`undefined`) for a
site that is not in `allowedSites`. -/
def resolve (site : String) : Option (PageRun → Context → Except JsError ScrapResult) :=
  if allowedSites.contains site then
    (if site = "aliexpress" then some scrapAliexpress else none)
  else none

/-- The function `createTask`. -/
def createTask (context : Context) : Task :=
  { context := context
    retries := -1
    success := false
    timeElapsed := 0
    perf := []
    errors := []
    pricePoints := some [] }

/-- What one attempt is given from outside: the behaviour of the page and the
duration `measureTimeElapsed(start)` reports once the scraper has resolved. -/
structure AttemptRun where
  page : PageRun
  elapsed : Nat

/-- How a call of `taskHandler` ends: it returns, it returns after
`tasks.delete(id)`, or it throws. -/
inductive Outcome where
  | returned
  | removed (id : String)
  | threw (v : Thrown)
deriving DecidableEq, Repr

/-- The function `taskHandler`: the task as the call leaves it, and how the
call ends. -/
def taskHandler (env : Env) (run : AttemptRun) (task : Task) : Task × Outcome :=
  let execution := task.retries + 1
  let task1 := { task with retries := task.retries + 1 }
  let context := task1.context
  match resolve context.site with
  | none =>
    -- `tasks.delete(context["id"]); return`
    if taskModuleScope.contains "tasks" then (task1, .removed context.id)
    else (task1, .threw (.err (referenceError "tasks")))
  | some scraper =>
    match scraper run.page context with
    | .error e => (task1, .threw (.err e))
    | .ok r =>
      let task2 := { task1 with timeElapsed := task1.timeElapsed + run.elapsed }
      match r.error with
      | some error =>
        let errorResult : ErrorRecord :=
          { transient := error.transient.getD true, execution := execution, perf := r.perf }
        let task3 := { task2 with errors := task2.errors ++ [errorResult] }
        if task3.retries < (env.retries : Int) ∧ errorResult.transient = true then
          (task3, .threw (.str "retry"))
        else
          ({ task3 with success := false }, .returned)
      | none =>
        ({ task2 with success := true, pricePoints := r.pricePoints, perf := r.perf }, .returned)

/-! ## util/cluster.js and the pool -/

/-- The options `initializeCluster` launches the pool with. -/
structure Cluster where
  maxConcurrency : Nat
  retryLimit : Nat
  timeout : Nat
  workerCreationDelay : Nat
  sameDomainDelay : Nat
deriving DecidableEq, Repr

/-- The options `initializeCluster` passes to `Cluster.launch`. -/
def launchOptions (env : Env) : Cluster :=
  { maxConcurrency := env.concurrency
    retryLimit := env.retries
    timeout := 240000
    workerCreationDelay := 1500
    sameDomainDelay := 1000 }

/-- The function `initializeCluster`; `launch` is the outcome of
`Cluster.launch` (`some e` when it rejects with `e`). -/
def initializeCluster (env : Env) (launch : Option JsError) : Except JsError Cluster :=
  match launch with
  | some e => .error e
  | none => .ok (launchOptions env)

/-- The pool working on one job: it calls the handler, and calls it again when
the call threw and the job has been re-run fewer than `retryLimit` times.
`budget` is the number of re-runs left, `tries` the number of calls made so
far, `run k` what the k-th call meets. The result lists the task and the
outcome after every call, oldest first. -/
def jobTrace (env : Env) (run : Nat → AttemptRun) : Nat → Nat → Task → List (Task × Outcome)
  | 0, tries, task => [taskHandler env (run tries) task]
  | budget + 1, tries, task =>
    let r := taskHandler env (run tries) task
    match r.2 with
    | .threw _ => r :: jobTrace env run budget (tries + 1) r.1
    | _ => [r]

/-- The task and the outcome of the last call the pool makes for one job. -/
def runJob (env : Env) (run : Nat → AttemptRun) : Nat → Nat → Task → Task × Outcome
  | 0, tries, task => taskHandler env (run tries) task
  | budget + 1, tries, task =>
    let r := taskHandler env (run tries) task
    match r.2 with
    | .threw _ => runJob env run budget (tries + 1) r.1
    | _ => r

/-! ## index.js -/

/-- A JavaScript `Map` from context id to task: the entries in insertion
order, at most one per key. -/
abbrev TaskMap := List (String × Task)

/-- The method `Map.prototype.set`: the value of a key already present is
replaced where it stands, a new key is appended. -/
def TaskMap.set : TaskMap → String → Task → TaskMap
  | [], k, v => [(k, v)]
  | (k0, v0) :: rest, k, v =>
    if k0 = k then (k0, v) :: rest else (k0, v0) :: TaskMap.set rest k v

/-- The method `Map.prototype.get`. -/
def TaskMap.get : TaskMap → String → Option Task
  | [], _ => none
  | (k0, v0) :: rest, k => if k0 = k then some v0 else TaskMap.get rest k

/-- The method `Map.prototype.delete`. -/
def TaskMap.delete (m : TaskMap) (k : String) : TaskMap :=
  m.filter (fun e => decide (e.1 ≠ k))

/-- The keys of a map, in insertion order. -/
def TaskMap.keys (m : TaskMap) : List String := m.map Prod.fst

/-- The property `Map.prototype.size`. -/
def TaskMap.size (m : TaskMap) : Nat := m.length

/-- The method `Map.prototype.values`, as the array `Array.from` builds. -/
def TaskMap.values (m : TaskMap) : List Task := m.map Prod.snd

/-- The first loop of `execute`, run on the map `tasks`: a task per context,
stored under its id. -/
def insertAll (tasks : TaskMap) (batch : List Context) : TaskMap :=
  batch.foldl (fun tasks context => TaskMap.set tasks context.id (createTask context)) tasks

/-- The map `execute` builds: the first loop run on `new Map()`. -/
def buildTasks (batch : List Context) : TaskMap := insertAll [] batch

/-- A JavaScript number that results from a division: a quotient, `Infinity`
or `NaN`. Quotients are exact; floating-point rounding is not modelled. -/
inductive JsNumber where
  | fin (q : ℚ)
  | inf
  | nan
deriving DecidableEq, Repr

/-- The quotient `t / n` of two non-negative numbers. -/
def JsNumber.div (t n : Nat) : JsNumber :=
  if n = 0 then (if t = 0 then .nan else .inf) else .fin ((t : ℚ) / (n : ℚ))

/-- The product of a number and a non-negative integer. -/
def JsNumber.mulNat : JsNumber → Nat → JsNumber
  | .fin q, c => .fin (q * (c : ℚ))
  | .inf, c => if c = 0 then .nan else .inf
  | .nan, _ => .nan

/-- The object `execute` returns, with the two properties the handler of
POST /scrap copies onto it from the request. -/
structure ExecResponse where
  response : List Task
  timeElapsed : Nat
  receivedTasksCount : Nat
  executedTasksCount : Nat
  avgTimeElapsedPerTask : JsNumber
  avgTimeElapsedPerCore : JsNumber
  successfullTasksCount : Nat
  receiptHandle : Option String := none
  messageId : Option String := none
deriving DecidableEq, Repr

/-- What a request does to the pool. -/
inductive Event where
  | launch
  | registerHandler
  | queue (task : Task)
deriving DecidableEq, Repr

/-- The object `parseRequestBody` resolves to, as the handler of POST /scrap
destructures it. -/
structure Parsed where
  receiptHandle : Option String
  messageId : Option String
  body : Option (List Context)
deriving DecidableEq, Repr

/-- What one POST request meets: the outcome of `parseRequestBody`, of
`Cluster.launch` and of `cluster.idle()` (`some e` when it rejects with `e`),
what the attempts of the task of each id meet, and the duration of the batch
`measureTimeElapsed(start)` reports. -/
structure Request where
  parse : Except JsError Parsed
  launch : Option JsError
  run : String → Nat → AttemptRun
  idle : Option JsError
  timeElapsed : Nat

/-- The pool working through the queued tasks until it is idle: every task of
the map is left as its last attempt left it, and a task whose handler asked
for its removal is deleted from the map. -/
def runQueue (env : Env) (cluster : Cluster) (run : String → Nat → AttemptRun)
    (tasks : TaskMap) : TaskMap :=
  let ran := tasks.map (fun e => (e.1, runJob env (run e.1) cluster.retryLimit 0 e.2))
  let removed := ran.filterMap (fun e =>
    match e.2.2 with
    | .removed id => some id
    | _ => none)
  removed.foldl TaskMap.delete (ran.map (fun e => (e.1, e.2.1)))

/-- The function `execute`: what it does to the pool, and the object it
resolves to or the error it rejects with. -/
def execute (env : Env) (cluster : Cluster) (batch : Option (List Context)) (req : Request) :
    List Event × Except JsError ExecResponse :=
  match batch with
  | none => ([.registerHandler], .error (typeError "Cannot read property length of undefined"))
  | some batch =>
    let receivedTasksCount := batch.length
    let tasks := buildTasks batch
    let executedTasksCount := tasks.size
    let events := Event.registerHandler :: tasks.values.map Event.queue
    match req.idle with
    | some e => (events, .error e)
    | none =>
      let tasks := runQueue env cluster req.run tasks
      let timeElapsed := req.timeElapsed
      let response := tasks.values
      let avgTimeElapsedPerTask := JsNumber.div timeElapsed executedTasksCount
      let avgTimeElapsedPerCore := avgTimeElapsedPerTask.mulNat env.concurrency
      let successfullTasksCount := (response.filter (fun task => task.success)).length
      (events, .ok { response := response
                     timeElapsed := timeElapsed
                     receivedTasksCount := receivedTasksCount
                     executedTasksCount := executedTasksCount
                     avgTimeElapsedPerTask := avgTimeElapsedPerTask
                     avgTimeElapsedPerCore := avgTimeElapsedPerCore
                     successfullTasksCount := successfullTasksCount })

/-- The module-level variables of index.js the handlers share. -/
structure Server where
  cluster : Option Cluster
  initializingCluster : Bool
  serverBusy : Bool
deriving DecidableEq, Repr

/-- The function `isBusy`. -/
def isBusy (st : Server) : Bool := st.serverBusy || st.initializingCluster

/-- A body written on the response. -/
inductive Body where
  | busy
  | error (message name : String)
  | result (r : ExecResponse)
deriving DecidableEq, Repr

/-- The response object: status code, content type, the bodies written and
whether `end` was called. -/
structure Res where
  statusCode : Nat
  contentType : Option String
  chunks : List Body
  ended : Bool
deriving DecidableEq, Repr

/-- The names bound where `response.proxy = proxy` stands in the handler of
POST /scrap: the parameters of the module wrapper of Node, the module-level
declarations of index.js, and the parameters and the locals of the handler
visible there. The global object of Node has no property of the name looked up
here. -/
def indexModuleScope : List String :=
  ["exports", "require", "module", "__filename", "__dirname",
   "http", "env", "logger", "taskHandler", "createTask", "extractClusterMetadata",
   "initializeCluster", "measureTimeElapsed", "parseRequestBody",
   "cluster", "initializingCluster", "serverBusy", "isBusy", "execute", "scrap",
   "status", "server",
   "req", "res", "receiptHandle", "messageId", "batch", "response"]

/-- What a run of the `try` block of the handler leaves behind. -/
structure TryResult where
  server : Server
  res : Res
  events : List Event
  thrown : Option JsError

/-- The `try` block of the handler of POST /scrap. -/
def scrapTry (env : Env) (st : Server) (res : Res) (req : Request) : TryResult :=
  if isBusy st then
    { server := st, res := { res with chunks := res.chunks ++ [.busy] }, events := [], thrown := none }
  else
    let st1 := { st with serverBusy := true }
    match req.parse with
    | .error e => { server := st1, res := res, events := [], thrown := some e }
    | .ok parsed =>
      let st2 := { st1 with initializingCluster := true }
      match initializeCluster env req.launch with
      | .error e =>
        { server := { st2 with initializingCluster := false }, res := res,
          events := [.launch], thrown := some e }
      | .ok cluster =>
        let st3 := { st2 with cluster := some cluster, initializingCluster := false }
        match execute env cluster parsed.body req with
        | (events, .error e) =>
          { server := st3, res := res, events := .launch :: events, thrown := some e }
        | (events, .ok response) =>
          -- `response.proxy = proxy`
          if indexModuleScope.contains "proxy" then
            let response := { response with receiptHandle := parsed.receiptHandle,
                                            messageId := parsed.messageId }
            { server := { st3 with serverBusy := false },
              res := { res with chunks := res.chunks ++ [.result response] },
              events := .launch :: events, thrown := none }
          else
            { server := st3, res := res, events := .launch :: events,
              thrown := some (referenceError "proxy") }

/-- What a call of the handler leaves behind. -/
structure HandlerResult where
  server : Server
  res : Res
  events : List Event
deriving DecidableEq, Repr

/-- The handler of POST /scrap and POST / (the function `scrap` of index.js):
the `try` block, the `catch` block when it threw, and `res.end()`. -/
def scrap (env : Env) (st : Server) (req : Request) : HandlerResult :=
  let res0 : Res :=
    { statusCode := 200, contentType := some "application/json", chunks := [], ended := false }
  let r := scrapTry env st res0 req
  match r.thrown with
  | none => { server := r.server, res := { r.res with ended := true }, events := r.events }
  | some error =>
    { server := { r.server with serverBusy := false }
      res := { r.res with statusCode := 500
                          chunks := r.res.chunks ++ [.error error.message error.name]
                          ended := true }
      events := r.events }

/-! ## Sample inputs -/

/-- A configuration with the default retry limit and two workers. -/
def env3 : Env := { retries := 3, concurrency := 2 }

/-- A configuration that allows one retry. -/
def env1 : Env := { retries := 1, concurrency := 1 }

/-- An offer as `parseOffer` would build it. -/
def sampleOffer : Offer :=
  { productTitle := some "Lamp", discountedPriceRange := some "US $1.00",
    fullPriceRange := some "US $2.00", grade := "4.8", soldUnits := some "10 Sold",
    seller := some "Store" }

/-- A page on which every operation resolves. -/
def pageOk : PageRun :=
  { loadPage := .ok 100, fillForm := .ok 200, submitForm := .ok 300,
    extractOffers := .ok [sampleOffer], screenshot := fun _ => none }

/-- A page whose navigation times out. -/
def pageTimeout : PageRun :=
  { pageOk with loadPage := .error { name := "TimeoutError", message := "Navigation timeout" } }

/-- A page whose navigation fails with an error marked permanent. -/
def pagePermanent : PageRun :=
  { pageOk with
    loadPage := .error { name := "Error", message := "blocked", transient := some false } }

/-- A job for the registered site. -/
def ctxAli : Context := { id := "a", site := "aliexpress", product := "x" }

/-- A job for a site that is not registered. -/
def ctxUnknown : Context := { id := "a", site := "ebay", product := "x" }

/-- Every attempt times out. -/
def runAlwaysFail : Nat → AttemptRun := fun _ => { page := pageTimeout, elapsed := 5 }

/-- The first attempt times out, the later ones succeed. -/
def runFailThenOk : Nat → AttemptRun := fun k =>
  if k = 0 then { page := pageTimeout, elapsed := 5 } else { page := pageOk, elapsed := 7 }

/-- The pool `initializeCluster` launches under `env3`. -/
def cluster3 : Cluster :=
  { maxConcurrency := 2, retryLimit := 3, timeout := 240000, workerCreationDelay := 1500,
    sameDomainDelay := 1000 }

/-- Two contexts with the same id and different products. -/
def dupBatch : List Context :=
  [{ id := "a", site := "aliexpress", product := "x" },
   { id := "a", site := "aliexpress", product := "y" }]

/-- A request whose body parses to `batch`, whose pool launches and goes idle,
and whose every attempt meets a page on which all operations resolve. -/
def reqOf (batch : List Context) : Request :=
  { parse := .ok { receiptHandle := none, messageId := none, body := some batch }
    launch := none
    run := fun _ _ => { page := pageOk, elapsed := 7 }
    idle := none
    timeElapsed := 1000 }

/-- The module-level variables of index.js when no request is in flight. -/
def serverIdle : Server := { cluster := none, initializingCluster := false, serverBusy := false }

/-- The module-level variables of index.js while a batch is running. -/
def serverRunning : Server :=
  { cluster := some cluster3, initializingCluster := false, serverBusy := true }

/-! ## Requests in flight

The handler of POST /scrap is an `async` function: it runs without
interruption up to an `await`, and other requests may be served before it is
resumed. The definitions below cut the handler at its three `await`s and let
the pieces of several requests interleave. -/

/-- The `await` a request that passed the admission check is suspended at:
`parseRequestBody(req)`, `initializeCluster()` or `execute(batch)`. -/
inductive Phase where
  | parsing
  | launching
  | executing
deriving DecidableEq, Repr

/-- The handler of POST /scrap from its first line to its first `await`: a
request answered `{busy: true}` is finished at once (`none`), an admitted one
raises `serverBusy` and waits for its body. -/
def enter (st : Server) : Server × Option Phase :=
  if isBusy st then (st, none) else ({ st with serverBusy := true }, some .parsing)

/-- The handler of POST /scrap from the `await` of `phase` to the next one, or
to its end (`none`); `resolved` tells whether the awaited promise resolved. -/
def resume (env : Env) (st : Server) (phase : Phase) (resolved : Bool) :
    Server × Option Phase :=
  match phase, resolved with
  | .parsing, true => ({ st with initializingCluster := true }, some .launching)
  | .parsing, false => ({ st with serverBusy := false }, none)
  | .launching, true =>
    ({ st with cluster := some (launchOptions env), initializingCluster := false },
     some .executing)
  | .launching, false => ({ st with initializingCluster := false, serverBusy := false }, none)
  | .executing, true =>
    -- `response.proxy = proxy`, then the end of the `try` block or the `catch` block
    if indexModuleScope.contains "proxy" then ({ st with serverBusy := false }, none)
    else ({ st with serverBusy := false }, none)
  | .executing, false => ({ st with serverBusy := false }, none)

/-- The module-level variables together with the admitted requests that are
suspended at an `await`. -/
structure System where
  server : Server
  inFlight : List Phase
deriving DecidableEq, Repr

/-- What happens next on the event loop: a POST request arrives, or the promise
the request at place `i` of `inFlight` awaits settles. -/
inductive Step where
  | arrive
  | settle (i : Nat) (resolved : Bool)
deriving DecidableEq, Repr

/-- One turn of the event loop. -/
def System.step (env : Env) (s : System) : Step → System
  | .arrive =>
    match enter s.server with
    | (st, none) => { s with server := st }
    | (st, some p) => { server := st, inFlight := s.inFlight ++ [p] }
  | .settle i resolved =>
    match s.inFlight.get? i with
    | none => s
    | some p =>
      match resume env s.server p resolved with
      | (st, none) => { server := st, inFlight := s.inFlight.eraseIdx i }
      | (st, some q) => { server := st, inFlight := s.inFlight.set i q }

/-- The system after a sequence of turns. -/
def System.run (env : Env) (s : System) (steps : List Step) : System :=
  steps.foldl (System.step env) s

/-- The system when the server starts. -/
def System.start : System := { server := serverIdle, inFlight := [] }

/-- The discipline of the admission gate: either no admitted request is in
flight and both flags are down, or exactly one is, `serverBusy` is up, and
`initializingCluster` is up exactly while that request awaits the pool. -/
def Gated (s : System) : Prop :=
  (s.inFlight = [] ∧ s.server.serverBusy = false ∧ s.server.initializingCluster = false) ∨
  (∃ p, s.inFlight = [p] ∧ s.server.serverBusy = true ∧
    (s.server.initializingCluster = true ↔ p = .launching))

/-- The module-level variables after one request has run alone from its arrival
to its end, the pieces of the handler resumed one after the other. -/
def runAlone (env : Env) (st : Server) (req : Request) : Server :=
  match enter st with
  | (st0, none) => st0
  | (st0, some p0) =>
    match req.parse with
    | .error _ => (resume env st0 p0 false).1
    | .ok parsed =>
      let st1 := (resume env st0 p0 true).1
      match initializeCluster env req.launch with
      | .error _ => (resume env st1 .launching false).1
      | .ok cluster =>
        let st2 := (resume env st1 .launching true).1
        match (execute env cluster parsed.body req).2 with
        | .error _ => (resume env st2 .executing false).1
        | .ok _ => (resume env st2 .executing true).1

/-! ## Reporting order -/

/-- The order by first occurrence, written for a list of ids on its own: every
id stands where it first occurs, and its later occurrences are left out. -/
def firstOccurrences : List String → List String
  | [] => []
  | x :: xs => x :: (firstOccurrences xs).filter (fun y => decide (y ≠ x))

/-- Three contexts, the first and the last sharing the id `"a"`. -/
def mixedBatch : List Context :=
  [{ id := "a", site := "aliexpress", product := "x" },
   { id := "b", site := "aliexpress", product := "z" },
   { id := "a", site := "aliexpress", product := "y" }]

/-! ## The handler, one call at a time -/

/-- Every call of `taskHandler` adds one to the retry counter. -/
theorem taskHandler_retries (env : Env) (run : AttemptRun) (task : Task) :
    (taskHandler env run task).1.retries = task.retries + 1 := by
  unfold taskHandler
  dsimp only
  split
  · split <;> rfl
  · split
    · rfl
    · split
      · split <;> rfl
      · rfl

/-- No call of `taskHandler` changes the context of the task. -/
theorem taskHandler_context (env : Env) (run : AttemptRun) (task : Task) :
    (taskHandler env run task).1.context = task.context := by
  unfold taskHandler
  dsimp only
  split
  · split <;> rfl
  · split
    · rfl
    · split
      · split <;> rfl
      · rfl

/-- The call of `taskHandler` whose scraper resolves with an error. -/
theorem taskHandler_failed (env : Env) (run : AttemptRun) (task : Task)
    (scraper : PageRun → Context → Except JsError ScrapResult) (r : ScrapResult) (e : JsError)
    (hscraper : resolve task.context.site = some scraper)
    (hrun : scraper run.page task.context = .ok r) (herr : r.error = some e) :
    taskHandler env run task =
      if task.retries + 1 < (env.retries : Int) ∧ e.transient.getD true = true then
        ({ task with retries := task.retries + 1
                     timeElapsed := task.timeElapsed + run.elapsed
                     errors := task.errors ++ [⟨e.transient.getD true, task.retries + 1, r.perf⟩] },
         .threw (.str "retry"))
      else
        ({ task with retries := task.retries + 1
                     timeElapsed := task.timeElapsed + run.elapsed
                     errors := task.errors ++ [⟨e.transient.getD true, task.retries + 1, r.perf⟩]
                     success := false },
         .returned) := by
  unfold taskHandler
  simp only [hscraper, hrun, herr]

/-- The call of `taskHandler` whose scraper resolves without an error. -/
theorem taskHandler_succeeded (env : Env) (run : AttemptRun) (task : Task)
    (scraper : PageRun → Context → Except JsError ScrapResult) (r : ScrapResult)
    (hscraper : resolve task.context.site = some scraper)
    (hrun : scraper run.page task.context = .ok r) (herr : r.error = none) :
    taskHandler env run task =
      ({ task with retries := task.retries + 1
                   timeElapsed := task.timeElapsed + run.elapsed
                   success := true
                   pricePoints := r.pricePoints
                   perf := r.perf },
       .returned) := by
  unfold taskHandler
  simp only [hscraper, hrun, herr]

/-- A failure marked permanent is recorded with the flag `false` and is not
retried, whatever the retries left: the call returns with `success = false`. -/
theorem taskHandler_permanent_sample :
    taskHandler env3 { page := pagePermanent, elapsed := 5 } (createTask ctxAli) =
      ({ createTask ctxAli with
           retries := 0
           timeElapsed := 5
           errors := [{ transient := false, execution := 0, perf := [] }] },
       .returned) := rfl

/-- The call of `taskHandler` for a site without a scraper. -/
theorem taskHandler_unsupported (env : Env) (run : AttemptRun) (task : Task)
    (hscraper : resolve task.context.site = none) :
    taskHandler env run task =
      ({ task with retries := task.retries + 1 }, .threw (.err (referenceError "tasks"))) := by
  unfold taskHandler
  simp only [hscraper]
  rfl

/-! ## The pool working on one job -/

/-- The flag recorded for a failure that does not mark itself permanent. -/
theorem transient_getD_of_ne (e : JsError) (h : e.transient ≠ some false) :
    e.transient.getD true = true := by
  cases ht : e.transient with
  | none => rfl
  | some b =>
    cases b with
    | true => rfl
    | false => exact absurd ht h

/-- A job all of whose remaining attempts fail transiently: with `d` retries
left before the limit and a pool that allows at least `d` re-runs, the last
call returns with `success = false`, and the calls record the executions
`tries`, `tries + 1`, ..., `tries + d`. -/
theorem runJob_all_fail (env : Env) (context : Context) (run : Nat → AttemptRun)
    (hfail : ∀ k, k ≤ env.retries → ∃ scraper r e, resolve context.site = some scraper ∧
      scraper (run k).page context = .ok r ∧ r.error = some e ∧ e.transient ≠ some false) :
    ∀ (d budget tries : Nat) (task : Task), tries + d = env.retries → d ≤ budget →
      task.retries + 1 = (tries : Int) → task.context = context →
      (runJob env run budget tries task).2 = .returned ∧
      (runJob env run budget tries task).1.success = false ∧
      (runJob env run budget tries task).1.errors.map ErrorRecord.execution =
        task.errors.map ErrorRecord.execution ++ (List.range' tries (d + 1)).map (fun (i : Nat) => (i : Int)) := by
  intro d
  induction d with
  | zero =>
    intro budget tries task hd _ hret hctx
    obtain ⟨scraper, r, e, hs, hr, he, _⟩ := hfail tries (by omega)
    have hstep := taskHandler_failed env (run tries) task scraper r e (hctx ▸ hs) (hctx ▸ hr) he
    have hcond : ¬ (task.retries + 1 < (env.retries : Int) ∧ e.transient.getD true = true) := by
      intro h
      have := h.1
      omega
    rw [if_neg hcond] at hstep
    have hrun : runJob env run budget tries task = taskHandler env (run tries) task := by
      cases budget with
      | zero => rfl
      | succ b => simp only [runJob, hstep]
    rw [hrun, hstep]
    refine ⟨rfl, rfl, ?_⟩
    simp [hret]
  | succ d ih =>
    intro budget tries task hd hb hret hctx
    obtain ⟨scraper, r, e, hs, hr, he, ht⟩ := hfail tries (by omega)
    have hstep := taskHandler_failed env (run tries) task scraper r e (hctx ▸ hs) (hctx ▸ hr) he
    have hcond : task.retries + 1 < (env.retries : Int) ∧ e.transient.getD true = true :=
      ⟨by omega, transient_getD_of_ne e ht⟩
    rw [if_pos hcond] at hstep
    obtain ⟨b, rfl⟩ : ∃ b, budget = b + 1 := ⟨budget - 1, by omega⟩
    simp only [runJob, hstep]
    have := ih b (tries + 1)
      { task with retries := task.retries + 1
                  timeElapsed := task.timeElapsed + (run tries).elapsed
                  errors := task.errors ++ [⟨e.transient.getD true, task.retries + 1, r.perf⟩] }
      (by omega) (by omega) (by simp only [Nat.cast_add, Nat.cast_one]; omega) hctx
    refine ⟨this.1, this.2.1, ?_⟩
    rw [this.2.2]
    simp [hret, List.range'_succ]

/-- The last entry of the trace of a job is what `runJob` returns. -/
theorem runJob_mem_jobTrace (env : Env) (run : Nat → AttemptRun) :
    ∀ (budget tries : Nat) (task : Task),
      runJob env run budget tries task ∈ jobTrace env run budget tries task := by
  intro budget
  induction budget with
  | zero =>
    intro tries task
    simp [runJob, jobTrace]
  | succ b ih =>
    intro tries task
    simp only [runJob, jobTrace]
    cases h : (taskHandler env (run tries) task).2 <;> simp
    exact Or.inr (ih _ _)

/-- After every call the pool makes for a job, the retry counter is at most
the counter the job started with plus one plus the number of re-runs allowed. -/
theorem jobTrace_retries_le (env : Env) (run : Nat → AttemptRun) :
    ∀ (budget tries : Nat) (task : Task), ∀ s ∈ jobTrace env run budget tries task,
      s.1.retries ≤ task.retries + 1 + (budget : Int) := by
  intro budget
  induction budget with
  | zero =>
    intro tries task s hs
    have hr := taskHandler_retries env (run tries) task
    simp only [jobTrace, List.mem_singleton] at hs
    subst hs
    simp only [hr, Nat.cast_zero]
    omega
  | succ b ih =>
    intro tries task s hs
    have hr := taskHandler_retries env (run tries) task
    simp only [jobTrace] at hs
    cases h : (taskHandler env (run tries) task).2 <;> simp [h] at hs
    · subst hs; omega
    · subst hs; omega
    · rcases hs with hs | hs
      · subst hs; omega
      · have := ih (tries + 1) _ s hs
        push_cast
        omega

/-! ## Retry policy -/

/-- C1. Retry exhaustion: with retry limit `env.retries`, a task made by
`createTask` all of whose attempts (the calls 0 to `env.retries`) end with the
scraper resolving to a failure that is not marked permanent, run by a pool that
allows at least `env.retries` re-runs, ends with `env.retries + 1` error
records whose executions are 0, 1, ..., `env.retries` in order, with
`success = false`, the last call having returned. -/
theorem retry_exhaustion (env : Env) (budget : Nat) (context : Context) (run : Nat → AttemptRun)
    (hpool : env.retries ≤ budget)
    (hfail : ∀ k, k ≤ env.retries → ∃ scraper r e, resolve context.site = some scraper ∧
      scraper (run k).page context = .ok r ∧ r.error = some e ∧ e.transient ≠ some false) :
    (runJob env run budget 0 (createTask context)).1.errors.map ErrorRecord.execution =
        (List.range (env.retries + 1)).map (fun (i : Nat) => (i : Int)) ∧
      (runJob env run budget 0 (createTask context)).1.errors.length = env.retries + 1 ∧
      (runJob env run budget 0 (createTask context)).1.success = false ∧
      (runJob env run budget 0 (createTask context)).2 = .returned := by
  have h := runJob_all_fail env context run hfail env.retries budget 0 (createTask context)
    (by omega) hpool rfl rfl
  have hexec : (runJob env run budget 0 (createTask context)).1.errors.map ErrorRecord.execution =
      (List.range (env.retries + 1)).map (fun (i : Nat) => (i : Int)) := by
    rw [h.2.2, List.range_eq_range']
    rfl
  refine ⟨hexec, ?_, h.2.1, h.1⟩
  have := congrArg List.length hexec
  simp only [List.length_map, List.length_range] at this
  exact this

/-- The retry exhaustion of `retry_exhaustion` at the limit 3: four records,
executions 0, 1, 2, 3. -/
theorem retry_exhaustion_witness :
    (runJob env3 runAlwaysFail 3 0 (createTask ctxAli)).1.errors.map ErrorRecord.execution =
        [0, 1, 2, 3] ∧
      (runJob env3 runAlwaysFail 3 0 (createTask ctxAli)).1.errors.length = 4 ∧
      (runJob env3 runAlwaysFail 3 0 (createTask ctxAli)).1.success = false ∧
      (runJob env3 runAlwaysFail 3 0 (createTask ctxAli)).2 = .returned :=
  retry_exhaustion env3 3 ctxAli runAlwaysFail (Nat.le_refl 3)
    (fun _ _ => ⟨scrapAliexpress, { error := some { name := "TimeoutError", message := "Navigation timeout" } },
      { name := "TimeoutError", message := "Navigation timeout" }, rfl, rfl, rfl, by decide⟩)

/-- C2. Success after one retry, evaluated: the first attempt times out, the
second resolves with one offer. The task ends with one error record,
`success = true` and the `perf` of the second attempt, but its `pricePoints` is
`undefined`: the scraper resolves to `{ offers, perf }` and `taskHandler` reads
`pricePoints` from it. -/
theorem success_after_retry_payload_undefined :
    scrapAliexpress (runFailThenOk 1).page ctxAli =
        .ok { offers := some [sampleOffer],
              perf := [("pageLoad", 100), ("fillParameters", 200), ("resultPage", 300)] } ∧
      (runJob env1 runFailThenOk 1 0 (createTask ctxAli)).2 = .returned ∧
      (runJob env1 runFailThenOk 1 0 (createTask ctxAli)).1.errors.length = 1 ∧
      (runJob env1 runFailThenOk 1 0 (createTask ctxAli)).1.success = true ∧
      (runJob env1 runFailThenOk 1 0 (createTask ctxAli)).1.perf =
        [("pageLoad", 100), ("fillParameters", 200), ("resultPage", 300)] ∧
      (runJob env1 runFailThenOk 1 0 (createTask ctxAli)).1.pricePoints = none := by
  refine ⟨rfl, rfl, rfl, rfl, rfl, rfl⟩

/-- C9. Retry bound: for a pool that re-runs a job only when the handler threw
and at most `budget ≤ env.retries` times, whatever the attempts meet and
whatever the site, the retry counter of a task made by `createTask` is at most
`env.retries` when the task is created, after every call of the handler, and
when the pool is done with the job. -/
theorem retry_bound (env : Env) (budget : Nat) (run : Nat → AttemptRun) (context : Context)
    (hbudget : budget ≤ env.retries) :
    (createTask context).retries ≤ (env.retries : Int) ∧
      (∀ s ∈ jobTrace env run budget 0 (createTask context), s.1.retries ≤ (env.retries : Int)) ∧
      (runJob env run budget 0 (createTask context)).1.retries ≤ (env.retries : Int) := by
  have hall : ∀ s ∈ jobTrace env run budget 0 (createTask context),
      s.1.retries ≤ (env.retries : Int) := by
    intro s hs
    have h := jobTrace_retries_le env run budget 0 (createTask context) s hs
    have h0 : (createTask context).retries = -1 := rfl
    have : (budget : Int) ≤ (env.retries : Int) := by exact_mod_cast hbudget
    omega
  refine ⟨?_, hall, hall _ (runJob_mem_jobTrace env run budget 0 (createTask context))⟩
  have h0 : (createTask context).retries = -1 := rfl
  omega

/-- The bound of `retry_bound` for a job of an unregistered site under the
limit 3: the counter ends at most at 3. -/
theorem retry_bound_witness :
    (3 : Nat) ≤ env3.retries ∧
      (runJob env3 runAlwaysFail 3 0 (createTask ctxUnknown)).1.retries ≤ (env3.retries : Int) :=
  ⟨Nat.le_refl 3, (retry_bound env3 3 runAlwaysFail ctxUnknown (Nat.le_refl 3)).2.2⟩

/-- C10. Retry decision: a call of `taskHandler` whose scraper resolves with an
error appends exactly one error record, whose transient flag is the flag of the
failure when it carries one and `true` otherwise; the call throws `"retry"`
exactly when the retry counter after the increment is below `env.retries` and
the recorded flag is `true`, and then `success` is left as it was; in every
other case the call returns, with `success = false`. -/
theorem retry_decision (env : Env) (run : AttemptRun) (task : Task)
    (scraper : PageRun → Context → Except JsError ScrapResult) (r : ScrapResult) (e : JsError)
    (hscraper : resolve task.context.site = some scraper)
    (hrun : scraper run.page task.context = .ok r) (herr : r.error = some e) :
    (taskHandler env run task).1.errors =
        task.errors ++ [{ transient := (match e.transient with
                                        | some b => b
                                        | none => true)
                          execution := task.retries + 1
                          perf := r.perf }] ∧
      (taskHandler env run task).1.retries = task.retries + 1 ∧
      ((taskHandler env run task).2 = .threw (.str "retry") ↔
        ((taskHandler env run task).1.retries < (env.retries : Int) ∧
          (match e.transient with
           | some b => b
           | none => true) = true)) ∧
      ((taskHandler env run task).2 = .threw (.str "retry") →
        (taskHandler env run task).1.success = task.success) ∧
      ((taskHandler env run task).2 ≠ .threw (.str "retry") →
        (taskHandler env run task).2 = .returned ∧ (taskHandler env run task).1.success = false) := by
  have hflag : (match e.transient with
                | some b => b
                | none => true) = e.transient.getD true := by
    cases e.transient <;> rfl
  rw [hflag, taskHandler_failed env run task scraper r e hscraper hrun herr]
  by_cases hc : task.retries + 1 < (env.retries : Int) ∧ e.transient.getD true = true
  · rw [if_pos hc]
    exact ⟨rfl, rfl, ⟨fun _ => hc, fun _ => rfl⟩, fun _ => rfl, fun h => absurd rfl h⟩
  · rw [if_neg hc]
    refine ⟨rfl, rfl, ⟨fun h => ?_, fun h => absurd h hc⟩, fun h => ?_, fun _ => ⟨rfl, rfl⟩⟩
    · exact absurd h (by simp)
    · exact absurd h (by simp)

/-- The decision of `retry_decision` on the first attempt of a job whose page
times out, under the limit 3: one record, flag `true`, and `"retry"` thrown. -/
theorem retry_decision_witness :
    (taskHandler env3 (runAlwaysFail 0) (createTask ctxAli)).1.errors =
        [{ transient := true, execution := 0, perf := [] }] ∧
      (taskHandler env3 (runAlwaysFail 0) (createTask ctxAli)).2 = .threw (.str "retry") :=
  have h := retry_decision env3 (runAlwaysFail 0) (createTask ctxAli) scrapAliexpress
    { error := some { name := "TimeoutError", message := "Navigation timeout" } }
    { name := "TimeoutError", message := "Navigation timeout" } rfl rfl rfl
  ⟨h.1, h.2.2.1.mpr ⟨by decide, rfl⟩⟩

/-! ## The batch map -/

/-- Setting a key keeps the keys when the key is present and appends it
otherwise. -/
theorem TaskMap.keys_set (m : TaskMap) (k : String) (v : Task) :
    TaskMap.keys (TaskMap.set m k v) =
      if k ∈ TaskMap.keys m then TaskMap.keys m else TaskMap.keys m ++ [k] := by
  induction m with
  | nil => simp [TaskMap.set, TaskMap.keys]
  | cons e rest ih =>
    obtain ⟨k0, v0⟩ := e
    simp only [TaskMap.keys] at ih
    by_cases h : k0 = k
    · simp [TaskMap.set, TaskMap.keys, h]
    · have h' : ¬ k = k0 := fun hk => h hk.symm
      simp only [TaskMap.set, TaskMap.keys, h, if_false, List.map_cons, List.mem_cons, h',
        false_or, ih]
      split <;> simp

/-- Reading a key after a `set`. -/
theorem TaskMap.get_set (m : TaskMap) (k : String) (v : Task) (k1 : String) :
    TaskMap.get (TaskMap.set m k v) k1 = if k1 = k then some v else TaskMap.get m k1 := by
  induction m with
  | nil =>
    by_cases h : k = k1
    · simp [TaskMap.set, TaskMap.get, h]
    · have h' : ¬ k1 = k := fun hk => h hk.symm
      simp [TaskMap.set, TaskMap.get, h, h']
  | cons e rest ih =>
    obtain ⟨k0, v0⟩ := e
    by_cases h : k0 = k
    · subst h
      by_cases h1 : k0 = k1
      · simp [TaskMap.set, TaskMap.get, h1]
      · have h1' : ¬ k1 = k0 := fun hk => h1 hk.symm
        simp [TaskMap.set, TaskMap.get, h1, h1']
    · by_cases h1 : k0 = k1
      · subst h1
        simp [TaskMap.set, TaskMap.get, h]
      · simp [TaskMap.set, TaskMap.get, h, h1, ih]

/-- The size of a map after a `set`. -/
theorem TaskMap.size_set (m : TaskMap) (k : String) (v : Task) :
    TaskMap.size (TaskMap.set m k v) =
      if k ∈ TaskMap.keys m then TaskMap.size m else TaskMap.size m + 1 := by
  have h := congrArg List.length (TaskMap.keys_set m k v)
  simp only [TaskMap.keys, List.length_map] at h
  simp only [TaskMap.size, TaskMap.keys, h]
  split <;> simp

/-- A `set` keeps the keys pairwise distinct. -/
theorem TaskMap.nodup_keys_set (m : TaskMap) (k : String) (v : Task)
    (h : (TaskMap.keys m).Nodup) : (TaskMap.keys (TaskMap.set m k v)).Nodup := by
  rw [TaskMap.keys_set]
  split
  · exact h
  · rename_i hk
    exact List.Nodup.append h (List.nodup_singleton k) (by simpa using hk)

/-- The loop of `execute` keeps the keys pairwise distinct. -/
theorem nodup_keys_insertAll (batch : List Context) :
    ∀ m : TaskMap, (TaskMap.keys m).Nodup → (TaskMap.keys (insertAll m batch)).Nodup := by
  induction batch with
  | nil => intro m h; exact h
  | cons c rest ih =>
    intro m h
    exact ih _ (TaskMap.nodup_keys_set m c.id (createTask c) h)

/-- The size of the map after the loop of `execute`: at most one more entry per
context, and exactly one more per context when the ids of the batch are
pairwise distinct and none is a key already. -/
theorem size_insertAll (batch : List Context) :
    ∀ m : TaskMap,
      TaskMap.size (insertAll m batch) ≤ TaskMap.size m + batch.length ∧
      (TaskMap.size (insertAll m batch) = TaskMap.size m + batch.length ↔
        (batch.map Context.id).Nodup ∧ ∀ c ∈ batch, c.id ∉ TaskMap.keys m) := by
  induction batch with
  | nil => intro m; simp [insertAll]
  | cons c rest ih =>
    intro m
    have hstep : insertAll m (c :: rest) = insertAll (TaskMap.set m c.id (createTask c)) rest := rfl
    obtain ⟨hle, hiff⟩ := ih (TaskMap.set m c.id (createTask c))
    rw [hstep]
    rw [TaskMap.size_set, TaskMap.keys_set] at hiff
    rw [TaskMap.size_set] at hle
    by_cases hk : c.id ∈ TaskMap.keys m
    · simp only [hk, if_true] at hle hiff
      refine ⟨by simp only [List.length_cons]; omega, ?_⟩
      constructor
      · intro h
        simp only [List.length_cons] at h
        omega
      · intro h
        exact absurd hk (h.2 c (List.mem_cons_self _ _))
    · simp only [hk, if_false] at hle hiff
      refine ⟨by simp only [List.length_cons]; omega, ?_⟩
      have hlen : TaskMap.size m + (c :: rest).length = TaskMap.size m + 1 + rest.length := by
        simp only [List.length_cons]; omega
      rw [hlen, hiff]
      simp only [List.map_cons, List.nodup_cons, List.mem_map, List.mem_append,
        List.mem_singleton, List.mem_cons, not_or, not_exists, not_and, forall_eq_or_imp,
        List.not_mem_nil, not_false_eq_true, and_true]
      constructor
      · rintro ⟨hnd, hall⟩
        exact ⟨⟨fun x hx hxc => (hall x hx).2 hxc, hnd⟩, hk, fun x hx => (hall x hx).1⟩
      · rintro ⟨⟨hne, hnd⟩, _, hall⟩
        exact ⟨hnd, fun x hx => ⟨hall x hx, fun hxc => hne x hx hxc⟩⟩

/-- Contexts with other ids leave the entry of an id as it is. -/
theorem get_insertAll_of_ne (id : String) (post : List Context) :
    ∀ m : TaskMap, (∀ c ∈ post, c.id ≠ id) →
      TaskMap.get (insertAll m post) id = TaskMap.get m id := by
  induction post with
  | nil => intro m _; rfl
  | cons c rest ih =>
    intro m h
    have hstep : insertAll m (c :: rest) = insertAll (TaskMap.set m c.id (createTask c)) rest := rfl
    rw [hstep, ih _ (fun x hx => h x (List.mem_cons_of_mem _ hx)), TaskMap.get_set]
    have : ¬ id = c.id := fun hc => h c (List.mem_cons_self _ _) hc.symm
    simp [this]

/-- The loop of `execute` over a batch cut in two. -/
theorem insertAll_append (m : TaskMap) (pre post : List Context) :
    insertAll m (pre ++ post) = insertAll (insertAll m pre) post := by
  simp [insertAll, List.foldl_append]

/-- In a map whose keys are pairwise distinct, the entries are what `get`
returns. -/
theorem TaskMap.mem_iff_get (m : TaskMap) (h : (TaskMap.keys m).Nodup) (k : String) (v : Task) :
    (k, v) ∈ m ↔ TaskMap.get m k = some v := by
  induction m with
  | nil => simp [TaskMap.get]
  | cons e rest ih =>
    obtain ⟨k0, v0⟩ := e
    simp only [TaskMap.keys, List.map_cons, List.nodup_cons, List.mem_map, not_exists,
      not_and] at h
    have ih' := ih (by simpa [TaskMap.keys] using h.2)
    by_cases hk : k0 = k
    · subst hk
      simp only [TaskMap.get, if_true, List.mem_cons, Prod.mk.injEq, true_and, Option.some.injEq]
      constructor
      · rintro (h1 | h1)
        · exact h1.symm
        · exact absurd rfl (h.1 (k0, v) h1)
      · intro h1
        exact Or.inl h1.symm
    · have hk' : ¬ k = k0 := fun hc => hk hc.symm
      simp only [TaskMap.get, hk, if_false, List.mem_cons, Prod.mk.injEq, hk', false_and,
        false_or]
      exact ih'

/-- An id that occurs in a batch has a last occurrence. -/
theorem exists_last_occurrence (id : String) (batch : List Context)
    (h : id ∈ batch.map Context.id) :
    ∃ pre c post, batch = pre ++ c :: post ∧ c.id = id ∧ ∀ x ∈ post, x.id ≠ id := by
  induction batch with
  | nil => simp at h
  | cons c0 rest ih =>
    by_cases hr : id ∈ rest.map Context.id
    · obtain ⟨pre, c, post, hb, hc, hp⟩ := ih hr
      exact ⟨c0 :: pre, c, post, by simp [hb], hc, hp⟩
    · refine ⟨[], c0, rest, rfl, ?_, ?_⟩
      · simp only [List.map_cons, List.mem_cons] at h
        rcases h with h | h
        · exact h.symm
        · exact absurd h hr
      · intro x hx hxid
        exact hr (List.mem_map.mpr ⟨x, hx, hxid⟩)

/-! ## Deduplication -/

/-- C4. For every batch, the `executedTasksCount` of the object `execute`
resolves to is the size of the map built from the batch, `receivedTasksCount`
is the length of the batch, the first is at most the second, and they are equal
exactly when the ids of the batch are pairwise distinct. -/
theorem executed_le_received (env : Env) (cluster : Cluster) (batch : List Context)
    (req : Request) (r : ExecResponse)
    (h : (execute env cluster (some batch) req).2 = .ok r) :
    r.receivedTasksCount = batch.length ∧
      r.executedTasksCount = TaskMap.size (buildTasks batch) ∧
      r.executedTasksCount ≤ r.receivedTasksCount ∧
      (r.executedTasksCount = r.receivedTasksCount ↔ (batch.map Context.id).Nodup) := by
  have hsize := size_insertAll batch []
  simp only [TaskMap.size, List.length_nil, Nat.zero_add, TaskMap.keys, List.map_nil,
    List.not_mem_nil, not_false_eq_true, implies_true, and_true] at hsize
  unfold execute at h
  simp only at h
  split at h
  · simp at h
  · simp only [Except.ok.injEq] at h
    subst h
    exact ⟨rfl, rfl, hsize.1, hsize.2⟩

/-- The counts of `executed_le_received` for two contexts sharing an id: two
received, one executed. -/
theorem executed_le_received_witness :
    ∃ r, (execute env3 cluster3 (some dupBatch) (reqOf dupBatch)).2 = .ok r ∧
      r.receivedTasksCount = 2 ∧ r.executedTasksCount = 1 ∧
      r.executedTasksCount ≤ r.receivedTasksCount :=
  ⟨_, rfl, rfl, rfl,
    (executed_le_received env3 cluster3 dupBatch (reqOf dupBatch) _ rfl).2.2.1⟩

/-- C5. Last write wins: for every batch and every id that occurs in it, the
map `execute` builds has exactly one entry under that id, and its task is the
one `createTask` makes from the last context of the batch with that id. -/
theorem last_write_wins (batch : List Context) (id : String)
    (h : id ∈ batch.map Context.id) :
    (TaskMap.keys (buildTasks batch)).count id = 1 ∧
      ∃ pre c post, batch = pre ++ c :: post ∧ c.id = id ∧ (∀ x ∈ post, x.id ≠ id) ∧
        TaskMap.get (buildTasks batch) id = some (createTask c) ∧
        (∀ t, (id, t) ∈ buildTasks batch ↔ t = createTask c) ∧
        (createTask c).context = c := by
  have hnd : (TaskMap.keys (buildTasks batch)).Nodup :=
    nodup_keys_insertAll batch [] List.nodup_nil
  obtain ⟨pre, c, post, hb, hc, hp⟩ := exists_last_occurrence id batch h
  have hget : TaskMap.get (buildTasks batch) id = some (createTask c) := by
    have hcut : buildTasks batch =
        insertAll (TaskMap.set (insertAll [] pre) c.id (createTask c)) post := by
      rw [buildTasks, hb, insertAll_append]
      rfl
    rw [hcut, get_insertAll_of_ne id post _ hp, TaskMap.get_set]
    simp [hc]
  have hmem : ∀ t, (id, t) ∈ buildTasks batch ↔ t = createTask c := by
    intro t
    rw [TaskMap.mem_iff_get _ hnd, hget]
    constructor
    · intro ht
      exact (Option.some.inj ht).symm
    · intro ht
      rw [ht]
  refine ⟨?_, pre, c, post, hb, hc, hp, hget, hmem, rfl⟩
  apply List.count_eq_one_of_mem hnd
  have := (hmem (createTask c)).mpr rfl
  exact List.mem_map.mpr ⟨(id, createTask c), this, rfl⟩

/-- The deduplication of `last_write_wins` on two contexts with id `"a"` and
products `"x"` and `"y"`: one entry, with product `"y"`. -/
theorem last_write_wins_witness :
    (TaskMap.keys (buildTasks dupBatch)).count "a" = 1 ∧
      (TaskMap.get (buildTasks dupBatch) "a").map (fun t => t.context.product) = some "y" :=
  ⟨(last_write_wins dupBatch "a" (by decide)).1, rfl⟩

/-- C3. Unsupported site, evaluated: for the batch of one context whose site is
not registered, `resolve` returns `undefined`, the call of `taskHandler` throws
a `ReferenceError` (`tasks` is not bound in core/task.js) having only counted
the attempt, and the response of `execute` lists the task of that context. -/
theorem unsupported_site_task_listed :
    (resolve ctxUnknown.site).isNone = true ∧
      taskHandler env3 (runAlwaysFail 0) (createTask ctxUnknown) =
        ({ createTask ctxUnknown with retries := 0 },
         .threw (.err { name := "ReferenceError", message := "tasks is not defined" })) ∧
      ∃ r, (execute env3 cluster3 (some [ctxUnknown]) (reqOf [ctxUnknown])).2 = .ok r ∧
        r.response = [{ createTask ctxUnknown with retries := 3 }] ∧
        r.executedTasksCount = 1 :=
  ⟨rfl, rfl, _, rfl, rfl, rfl⟩

/-! ## Admission gate and the handler of POST /scrap -/

/-- The identifier `proxy` is not bound where the handler of POST /scrap reads
it. -/
theorem proxy_unbound : indexModuleScope.contains "proxy" = false := by decide

/-- When the `try` block of the handler is entered with both flags down, it is
left with `initializingCluster` down, and with `serverBusy` down unless it
threw. -/
theorem scrapTry_flags (env : Env) (st : Server) (res : Res) (req : Request)
    (h : isBusy st = false) :
    (scrapTry env st res req).server.initializingCluster = false ∧
      ((scrapTry env st res req).thrown = none →
        (scrapTry env st res req).server.serverBusy = false) := by
  have hb : st.serverBusy = false ∧ st.initializingCluster = false := by
    simpa [isBusy] using h
  unfold scrapTry
  simp only [h, proxy_unbound, Bool.false_eq_true, if_false]
  cases req.parse with
  | error e => simp [hb.2]
  | ok parsed =>
    cases initializeCluster env req.launch with
    | error e => simp
    | ok cluster =>
      simp only
      split <;> simp

/-- C6. Guaranteed release: for every request that passes the admission check,
whatever `parseRequestBody`, `initializeCluster` and `execute` do, both
`serverBusy` and `initializingCluster` are false when the handler returns, and
the response has been ended. -/
theorem guaranteed_release (env : Env) (st : Server) (req : Request)
    (h : isBusy st = false) :
    (scrap env st req).server.serverBusy = false ∧
      (scrap env st req).server.initializingCluster = false ∧
      (scrap env st req).res.ended = true := by
  have hflags := scrapTry_flags env st
    { statusCode := 200, contentType := some "application/json", chunks := [], ended := false }
    req h
  unfold scrap
  simp only
  split
  · rename_i hnone
    exact ⟨hflags.2 hnone, hflags.1, rfl⟩
  · exact ⟨rfl, hflags.1, rfl⟩

/-- The release of `guaranteed_release` for a request that is admitted and
whose `execute` resolves. -/
theorem guaranteed_release_witness :
    isBusy serverIdle = false ∧
      ((scrap env3 serverIdle (reqOf [ctxAli])).server.serverBusy = false ∧
        (scrap env3 serverIdle (reqOf [ctxAli])).server.initializingCluster = false ∧
        (scrap env3 serverIdle (reqOf [ctxAli])).res.ended = true) :=
  ⟨rfl, guaranteed_release env3 serverIdle (reqOf [ctxAli]) rfl⟩

/-- C7. Busy rejection: in every state in which `serverBusy` or
`initializingCluster` is true, the handler writes the body `{busy: true}` and
nothing else, queues no task and does not launch the pool, and leaves the
module-level variables as they were. -/
theorem busy_rejection (env : Env) (st : Server) (req : Request) (h : isBusy st = true) :
    scrap env st req =
      { server := st
        res := { statusCode := 200, contentType := some "application/json", chunks := [.busy],
                 ended := true }
        events := [] } := by
  unfold scrap scrapTry
  simp [h]

/-- The rejection of `busy_rejection` while a batch is running. -/
theorem busy_rejection_witness :
    isBusy serverRunning = true ∧
      (scrap env3 serverRunning (reqOf [ctxAli])).res.chunks = [.busy] ∧
      (scrap env3 serverRunning (reqOf [ctxAli])).events = [] ∧
      (scrap env3 serverRunning (reqOf [ctxAli])).server = serverRunning :=
  ⟨rfl, by rw [busy_rejection env3 serverRunning (reqOf [ctxAli]) rfl],
    by rw [busy_rejection env3 serverRunning (reqOf [ctxAli]) rfl],
    by rw [busy_rejection env3 serverRunning (reqOf [ctxAli]) rfl]⟩

/-- The `try` block of the handler throws for every request that passes the
admission check: either one of its steps threw, or `execute` resolved and
reading `proxy` threw. -/
theorem scrapTry_admitted_throws (env : Env) (st : Server) (res : Res) (req : Request)
    (h : isBusy st = false) : ∃ e, (scrapTry env st res req).thrown = some e := by
  unfold scrapTry
  simp only [h, proxy_unbound, Bool.false_eq_true, if_false]
  cases req.parse with
  | error e => exact ⟨e, rfl⟩
  | ok parsed =>
    cases initializeCluster env req.launch with
    | error e => exact ⟨e, rfl⟩
    | ok cluster =>
      simp only
      rcases hexec : execute env cluster parsed.body req with ⟨events, e | r⟩
      · exact ⟨e, rfl⟩
      · exact ⟨referenceError "proxy", rfl⟩

/-- Every request that passes the admission check is answered with status
500. -/
theorem scrap_admitted_status (env : Env) (st : Server) (req : Request)
    (h : isBusy st = false) : (scrap env st req).res.statusCode = 500 := by
  obtain ⟨e, he⟩ := scrapTry_admitted_throws env st
    { statusCode := 200, contentType := some "application/json", chunks := [], ended := false }
    req h
  unfold scrap
  simp only [he]

/-- C8. Successful response, evaluated: for a request of one job that is
admitted, whose body parses, whose pool launches and whose `execute` resolves
(one task, successful, `successfullTasksCount = 1`), the handler answers with
status 500 and the body `{error: {message: "proxy is not defined", name:
"ReferenceError"}}`: `response.proxy = proxy` reads an identifier that is bound
nowhere in index.js. -/
theorem admitted_request_answered_500 :
    isBusy serverIdle = false ∧
      initializeCluster env3 (reqOf [ctxAli]).launch = .ok cluster3 ∧
      (∃ r, (execute env3 cluster3 (some [ctxAli]) (reqOf [ctxAli])).2 = .ok r ∧
        r.response.map (fun t => t.success) = [true] ∧ r.successfullTasksCount = 1 ∧
        r.receivedTasksCount = 1 ∧ r.executedTasksCount = 1) ∧
      (scrap env3 serverIdle (reqOf [ctxAli])).res =
        { statusCode := 500, contentType := some "application/json",
          chunks := [.error "proxy is not defined" "ReferenceError"], ended := true } :=
  ⟨rfl, rfl, ⟨_, rfl, rfl, rfl, rfl, rfl⟩, rfl⟩

/-! ## No task leaves the map -/

/-- The identifier `tasks` is not bound where `taskHandler` reads it. -/
theorem tasks_unbound : taskModuleScope.contains "tasks" = false := by decide

/-- No call of `taskHandler` ends having deleted the task from a map. -/
theorem taskHandler_not_removed (env : Env) (run : AttemptRun) (task : Task) (id : String) :
    (taskHandler env run task).2 ≠ .removed id := by
  unfold taskHandler
  simp only [tasks_unbound, Bool.false_eq_true, if_false]
  split
  · simp
  · split
    · simp
    · split
      · split <;> simp
      · simp

/-- The pool never ends a job with the task deleted from a map. -/
theorem runJob_not_removed (env : Env) (run : Nat → AttemptRun) (id : String) :
    ∀ (budget tries : Nat) (task : Task), (runJob env run budget tries task).2 ≠ .removed id := by
  intro budget
  induction budget with
  | zero =>
    intro tries task
    exact taskHandler_not_removed env (run tries) task id
  | succ b ih =>
    intro tries task
    simp only [runJob]
    split
    · exact ih _ _
    · exact taskHandler_not_removed env (run tries) task id

/-- The pool leaves the context of a task as it is. -/
theorem runJob_context (env : Env) (run : Nat → AttemptRun) :
    ∀ (budget tries : Nat) (task : Task),
      (runJob env run budget tries task).1.context = task.context := by
  intro budget
  induction budget with
  | zero =>
    intro tries task
    exact taskHandler_context env (run tries) task
  | succ b ih =>
    intro tries task
    simp only [runJob]
    split
    · rw [ih, taskHandler_context]
    · exact taskHandler_context env (run tries) task

/-- When the pool is idle, every entry of the map is still there, under its
key and at its place, holding the task as its last attempt left it. -/
theorem runQueue_eq (env : Env) (cluster : Cluster) (run : String → Nat → AttemptRun)
    (tasks : TaskMap) :
    runQueue env cluster run tasks =
      tasks.map (fun e => (e.1, (runJob env (run e.1) cluster.retryLimit 0 e.2).1)) := by
  unfold runQueue
  have hnil : (tasks.map (fun e => (e.1, runJob env (run e.1) cluster.retryLimit 0 e.2))).filterMap
      (fun e => match e.2.2 with
        | .removed id => some id
        | _ => none) = [] := by
    rw [List.filterMap_eq_nil_iff]
    intro e he
    obtain ⟨e0, _, rfl⟩ := List.mem_map.mp he
    split
    · rename_i id hid
      exact absurd hid (runJob_not_removed env (run e0.1) id _ _ _)
    · rfl
  simp only [hnil, List.foldl_nil, List.map_map]
  rfl

/-- Every entry of the map `execute` builds holds a task whose context carries
the key of the entry. -/
theorem insertAll_key_eq_id (batch : List Context) :
    ∀ m : TaskMap, (∀ e ∈ m, e.2.context.id = e.1) →
      ∀ e ∈ insertAll m batch, e.2.context.id = e.1 := by
  induction batch with
  | nil => intro m h; exact h
  | cons c rest ih =>
    intro m h
    apply ih
    intro e he
    have hset : ∀ (m : TaskMap), (∀ e ∈ m, e.2.context.id = e.1) →
        ∀ e ∈ TaskMap.set m c.id (createTask c), e.2.context.id = e.1 := by
      intro m
      induction m with
      | nil =>
        intro _ e he
        simp only [TaskMap.set, List.mem_singleton] at he
        subst he
        rfl
      | cons e0 m0 ihm =>
        intro hm e he
        obtain ⟨k0, v0⟩ := e0
        by_cases hk : k0 = c.id
        · simp only [TaskMap.set, hk, if_true, List.mem_cons] at he
          rcases he with he | he
          · subst he; rfl
          · exact hm e (List.mem_cons_of_mem _ he)
        · simp only [TaskMap.set, hk, if_false, List.mem_cons] at he
          rcases he with he | he
          · subst he; exact hm _ (List.mem_cons_self _ _)
          · exact ihm (fun x hx => hm x (List.mem_cons_of_mem _ hx)) e he
    exact hset m h e he

/-- Whatever the sites of the batch, the response of `execute` lists one task
per key of the map built from the batch, in the order of the keys: no task is
dropped. -/
theorem execute_response_ids (env : Env) (cluster : Cluster) (batch : List Context)
    (req : Request) (r : ExecResponse)
    (h : (execute env cluster (some batch) req).2 = .ok r) :
    r.response.map (fun t => t.context.id) = TaskMap.keys (buildTasks batch) := by
  unfold execute at h
  simp only at h
  split at h
  · simp at h
  · simp only [Except.ok.injEq] at h
    subst h
    simp only [runQueue_eq, TaskMap.values, TaskMap.keys, List.map_map]
    apply List.map_congr_left
    intro e he
    simp only [Function.comp, runJob_context]
    exact insertAll_key_eq_id batch [] (by simp) e he

/-! ## The admission gate under interleaving -/

/-- Run alone, the pieces of the handler leave the module-level variables as
the handler run in one go does. -/
theorem scrap_server_eq_runAlone (env : Env) (st : Server) (req : Request) :
    (scrap env st req).server = runAlone env st req := by
  unfold scrap scrapTry runAlone enter
  by_cases hb : isBusy st = true
  · simp [hb]
  · simp only [hb, Bool.false_eq_true, if_false, proxy_unbound]
    cases req.parse with
    | error e => rfl
    | ok parsed =>
      cases hl : req.launch with
      | some e => simp only [initializeCluster]; rfl
      | none =>
        simp only [initializeCluster]
        rcases hexec : execute env (launchOptions env) parsed.body req with ⟨events, e | r⟩
        · rfl
        · rfl

/-- Every turn of the event loop keeps the discipline of the gate. -/
theorem Gated.step (env : Env) (s : System) (h : Gated s) (e : Step) :
    Gated (s.step env e) := by
  rcases h with ⟨hnil, hbusy, hinit⟩ | ⟨p, hone, hbusy, hinit⟩
  · cases e with
    | arrive =>
      refine Or.inr ⟨.parsing, ?_, ?_, ?_⟩
      · simp [System.step, enter, isBusy, hbusy, hinit, hnil]
      · simp [System.step, enter, isBusy, hbusy, hinit]
      · simp [System.step, enter, isBusy, hbusy, hinit]
    | settle i resolved =>
      refine Or.inl ?_
      simp [System.step, hnil, hbusy, hinit]
  · cases e with
    | arrive =>
      refine Or.inr ⟨p, ?_, ?_, ?_⟩
      · simp [System.step, enter, isBusy, hbusy, hone]
      · simp [System.step, enter, isBusy, hbusy]
      · simpa [System.step, enter, isBusy, hbusy] using hinit
    | settle i resolved =>
      cases i with
      | succ j =>
        refine Or.inr ⟨p, ?_, ?_, ?_⟩
        · simp [System.step, hone]
        · simp [System.step, hone, hbusy]
        · simpa [System.step, hone] using hinit
      | zero =>
        cases p <;> cases resolved
        · have hdown : s.server.initializingCluster = false := by
            cases hi : s.server.initializingCluster with
            | false => rfl
            | true => exact absurd (hinit.mp hi) (by decide)
          exact Or.inl (by simp [System.step, hone, resume, hdown])
        · exact Or.inr ⟨.launching, by simp [System.step, hone, resume],
            by simp [System.step, hone, resume, hbusy], by simp [System.step, hone, resume]⟩
        · exact Or.inl (by simp [System.step, hone, resume])
        · exact Or.inr ⟨.executing, by simp [System.step, hone, resume],
            by simp [System.step, hone, resume, hbusy], by simp [System.step, hone, resume]⟩
        · exact Or.inl (by simpa [System.step, hone, resume] using hinit)
        · exact Or.inl (by simpa [System.step, hone, resume] using hinit)

/-- From the start of the server on, whatever the order in which requests
arrive and promises settle, the discipline of the gate holds. -/
theorem Gated.run (env : Env) (steps : List Step) : Gated (System.start.run env steps) := by
  have hgen : ∀ (steps : List Step) (s : System), Gated s → Gated (s.run env steps) := by
    intro steps
    induction steps with
    | nil => intro s h; exact h
    | cons e rest ih => intro s h; exact ih _ (Gated.step env s h e)
  exact hgen steps _ (Or.inl ⟨rfl, rfl, rfl⟩)

/-- Under interleaving too, the turn that ends an admitted request leaves both
flags down, and no request is admitted while another is in flight. -/
theorem Gated.release_and_exclusion (env : Env) (steps : List Step) :
    (System.start.run env steps).inFlight.length ≤ 1 ∧
      ((System.start.run env steps).inFlight = [] →
        (System.start.run env steps).server.serverBusy = false ∧
        (System.start.run env steps).server.initializingCluster = false) ∧
      ((System.start.run env steps).inFlight ≠ [] →
        ((System.start.run env steps).step env .arrive) = System.start.run env steps) := by
  rcases Gated.run env steps with ⟨hnil, hbusy, hinit⟩ | ⟨p, hone, hbusy, hinit⟩
  · exact ⟨by simp [hnil], fun _ => ⟨hbusy, hinit⟩, fun h => absurd hnil h⟩
  · refine ⟨by simp [hone], fun h => ?_, fun _ => ?_⟩
    · rw [hone] at h
      exact absurd h (by simp)
    · simp [System.step, enter, isBusy, hbusy]

/-! ## The order of the response -/

/-- The order by first occurrence has the elements of the list. -/
theorem mem_firstOccurrences (x : String) (l : List String) :
    x ∈ firstOccurrences l ↔ x ∈ l := by
  induction l with
  | nil => simp [firstOccurrences]
  | cons a rest ih =>
    simp only [firstOccurrences, List.mem_cons, List.mem_filter, decide_eq_true_eq, ih]
    constructor
    · rintro (h | ⟨h, _⟩)
      · exact Or.inl h
      · exact Or.inr h
    · rintro (h | h)
      · exact Or.inl h
      · by_cases hx : x = a
        · exact Or.inl hx
        · exact Or.inr ⟨h, hx⟩

/-- The order by first occurrence lists no id twice. -/
theorem nodup_firstOccurrences (l : List String) : (firstOccurrences l).Nodup := by
  induction l with
  | nil => simp [firstOccurrences]
  | cons a rest ih =>
    simp only [firstOccurrences, List.nodup_cons, List.mem_filter, decide_eq_true_eq]
    exact ⟨fun h => h.2 rfl, ih.filter _⟩

/-- In the order by first occurrence, an id stands before another exactly as
their first occurrences do in the list. -/
theorem pairwise_firstOccurrences (l : List String) :
    (firstOccurrences l).Pairwise (fun a b => l.indexOf a < l.indexOf b) := by
  induction l with
  | nil => simp [firstOccurrences]
  | cons x rest ih =>
    simp only [firstOccurrences, List.pairwise_cons, List.mem_filter, decide_eq_true_eq]
    constructor
    · rintro b ⟨_, hb⟩
      rw [List.indexOf_cons_self, List.indexOf_cons_ne _ (fun h => hb h.symm)]
      exact Nat.succ_pos _
    · have hsub : ((firstOccurrences rest).filter (fun y => decide (y ≠ x))).Pairwise
          (fun a b => rest.indexOf a < rest.indexOf b) := ih.filter _
      refine hsub.imp_of_mem ?_
      intro a b ha hb hab
      have hax : a ≠ x := by simpa using (List.mem_filter.mp ha).2
      have hbx : b ≠ x := by simpa using (List.mem_filter.mp hb).2
      rw [List.indexOf_cons_ne _ (fun h => hax h.symm),
        List.indexOf_cons_ne _ (fun h => hbx h.symm)]
      exact Nat.succ_lt_succ hab

/-- The keys after the loop of `execute`: the keys the map had, then the ids of
the batch that were no key yet, in the order of their first occurrence. -/
theorem keys_insertAll (batch : List Context) :
    ∀ m : TaskMap, TaskMap.keys (insertAll m batch) =
      TaskMap.keys m ++
        (firstOccurrences (batch.map Context.id)).filter (fun y => decide (y ∉ TaskMap.keys m)) := by
  induction batch with
  | nil => intro m; simp [insertAll, firstOccurrences]
  | cons c rest ih =>
    intro m
    have hstep : insertAll m (c :: rest) = insertAll (TaskMap.set m c.id (createTask c)) rest := rfl
    rw [hstep, ih, TaskMap.keys_set]
    by_cases hk : c.id ∈ TaskMap.keys m
    · simp only [hk, if_true, List.map_cons, firstOccurrences, List.filter_cons,
        not_true_eq_false, decide_False, Bool.false_eq_true, if_false, List.filter_filter]
      congr 1
      apply List.filter_congr
      intro y _
      by_cases hy : y ∈ TaskMap.keys m
      · simp [hy]
      · have : y ≠ c.id := fun h => hy (h ▸ hk)
        simp [hy, this]
    · simp only [hk, if_false, List.map_cons, firstOccurrences, List.filter_cons,
        not_false_eq_true, decide_True, if_true, List.filter_filter, List.append_assoc,
        List.singleton_append]
      congr 2
      apply List.filter_congr
      intro y _
      by_cases hy : y ∈ TaskMap.keys m
      · simp [hy]
      · by_cases hyc : y = c.id
        · simp [hyc]
        · simp [hy, hyc]

/-- The keys of the map `execute` builds are the ids of the batch in the order
of their first occurrence. -/
theorem keys_buildTasks (batch : List Context) :
    TaskMap.keys (buildTasks batch) = firstOccurrences (batch.map Context.id) := by
  rw [buildTasks, keys_insertAll]
  simp [TaskMap.keys]

/-- Every entry of the map `execute` builds holds the task `createTask` makes
from the last context of the batch that carries the key of the entry. -/
theorem mem_buildTasks_last (batch : List Context) (k : String) (t : Task)
    (h : (k, t) ∈ buildTasks batch) :
    ∃ pre c post, batch = pre ++ c :: post ∧ c.id = k ∧ (∀ x ∈ post, x.id ≠ k) ∧
      t = createTask c := by
  have hnd : (TaskMap.keys (buildTasks batch)).Nodup :=
    nodup_keys_insertAll batch [] List.nodup_nil
  have hk : k ∈ batch.map Context.id := by
    rw [← mem_firstOccurrences, ← keys_buildTasks]
    exact List.mem_map.mpr ⟨(k, t), h, rfl⟩
  obtain ⟨pre, c, post, hb, hc, hp⟩ := exists_last_occurrence k batch hk
  refine ⟨pre, c, post, hb, hc, hp, ?_⟩
  have hcut : buildTasks batch =
      insertAll (TaskMap.set (insertAll [] pre) c.id (createTask c)) post := by
    rw [buildTasks, hb, insertAll_append]
    rfl
  have hget : TaskMap.get (buildTasks batch) k = some (createTask c) := by
    rw [hcut, get_insertAll_of_ne k post _ hp, TaskMap.get_set]
    simp [hc]
  have := (TaskMap.mem_iff_get _ hnd k t).mp h
  rw [hget] at this
  exact (Option.some.inj this).symm

/-- C11. Reporting order: for every batch, the response of `execute` lists the
tasks in the insertion order of the map built from the batch, context by
context; the ids it lists are the ids of the batch, each once, ordered by the
place of their first occurrence in the batch; and the task listed for an id
carries the last context of the batch with that id. -/
theorem reporting_order (env : Env) (cluster : Cluster) (batch : List Context)
    (req : Request) (r : ExecResponse)
    (h : (execute env cluster (some batch) req).2 = .ok r) :
    r.response.map (fun t => t.context) =
        (TaskMap.values (buildTasks batch)).map (fun t => t.context) ∧
      r.response.map (fun t => t.context.id) = TaskMap.keys (buildTasks batch) ∧
      r.response.map (fun t => t.context.id) = firstOccurrences (batch.map Context.id) ∧
      (r.response.map (fun t => t.context.id)).Nodup ∧
      (∀ id, id ∈ r.response.map (fun t => t.context.id) ↔ id ∈ batch.map Context.id) ∧
      (r.response.map (fun t => t.context.id)).Pairwise
        (fun a b => (batch.map Context.id).indexOf a < (batch.map Context.id).indexOf b) ∧
      (∀ t ∈ r.response, ∃ pre c post, batch = pre ++ c :: post ∧ t.context = c ∧
        ∀ x ∈ post, x.id ≠ c.id) := by
  have hids := execute_response_ids env cluster batch req r h
  have hfirst : r.response.map (fun t => t.context.id) =
      firstOccurrences (batch.map Context.id) := by
    rw [hids, keys_buildTasks]
  have hresp : r.response = (buildTasks batch).map
      (fun e => (runJob env (req.run e.1) cluster.retryLimit 0 e.2).1) := by
    unfold execute at h
    simp only at h
    split at h
    · simp at h
    · simp only [Except.ok.injEq] at h
      subst h
      simp only [runQueue_eq, TaskMap.values, List.map_map]
      rfl
  refine ⟨?_, hids, hfirst, ?_, ?_, ?_, ?_⟩
  · rw [hresp]
    simp only [TaskMap.values, List.map_map]
    apply List.map_congr_left
    intro e _
    simp only [Function.comp, runJob_context]
  · rw [hfirst]
    exact nodup_firstOccurrences _
  · intro id
    rw [hfirst]
    exact mem_firstOccurrences id _
  · rw [hfirst]
    exact pairwise_firstOccurrences _
  · intro t ht
    rw [hresp] at ht
    obtain ⟨e, he, rfl⟩ := List.mem_map.mp ht
    obtain ⟨pre, c, post, hb, hc, hp, hcreate⟩ := mem_buildTasks_last batch e.1 e.2 he
    refine ⟨pre, c, post, hb, ?_, ?_⟩
    · rw [runJob_context, hcreate]
      rfl
    · intro x hx
      rw [hc]
      exact hp x hx

/-- The order of `reporting_order` for three contexts with the ids `"a"`,
`"b"`, `"a"`: the response lists `"a"` first, with the product of the later
duplicate, then `"b"`. -/
theorem reporting_order_witness :
    ∃ r, (execute env3 cluster3 (some mixedBatch) (reqOf mixedBatch)).2 = .ok r ∧
      r.response.map (fun t => (t.context.id, t.context.product)) = [("a", "y"), ("b", "z")] ∧
      r.response.map (fun t => t.context.id) = firstOccurrences (mixedBatch.map Context.id) :=
  ⟨_, rfl, rfl,
    (reporting_order env3 cluster3 mixedBatch (reqOf mixedBatch) _ rfl).2.2.1⟩

end Crawler
